import Mathlib

/-!
Verification of the segmented-gather primitive for list columns
declared in `cpp/include/cudf/lists/gather.hpp`.

Only the declaration and its documentation live in the repository
snapshot; the function body is modelled from the specification
(sections 3, 4.1-4.6, 6 and 7), which describes the pipeline
Validator -> Offset Planner -> Bounds Resolver -> Flat Index Builder ->
Recursive Leaf Gather -> Validity Composer.

The embedding is semantic: a list column is a sequence of rows, each
row a validity flag plus a list of nullable cells; cells may themselves
be nested lists, so a whole-cell copy is exactly the spec's recursive
leaf gather with its offsets renumbered.  The flattened child and the
exclusive-prefix-sum offsets of the representation are recovered by
`flatChild` and `offsetsOf` below, and the flat-index lookup of
spec 4.4/4.5 is modelled literally: each gathered element is fetched
from the flattened child at `source offset of the row + resolved index`.
-/

set_option autoImplicit false

namespace Cudf

/-- Element types of a column's child: an integral leaf (index type), a
non-integral leaf, or a nested list type. -/
inductive DType where
  | INT : DType
  | STRING : DType
  | LIST : DType → DType
deriving DecidableEq

/-- A cell value: an integer leaf, a string leaf, or a nested list of
nullable cells (arbitrary nesting depth). -/
inductive Cell where
  | intv : Int → Cell
  | strv : String → Cell
  | listv : List (Option Cell) → Cell

/-- One row of a list column: its row-level validity flag and its
(nullable) elements.  A null row keeps its structural contents; they are
semantically ignored (spec section 3). -/
structure Row where
  valid : Bool
  elems : List (Option Cell)

/-- A list column: the element type of its child together with its rows.
Offsets and the flattened child of the columnar representation are
derived by `offsetsOf` and `flatChild`. -/
structure ListColumn where
  childType : DType
  rows : List Row

/-- Out-of-bounds policy for gather indices, per `gather.hpp`:
`DONT_CHECK` leaves out-of-range indices unchecked (behavior
undefined), `NULLIFY` nullifies the corresponding output element. -/
inductive out_of_bounds_policy where
  | DONT_CHECK
  | NULLIFY
deriving DecidableEq

/-- Length of a row, the `row_length` of spec 4.2. -/
def rowLen (r : Row) : Nat := r.elems.length

/-- Modelled from the spec: the Bounds Resolver (spec 4.2).
`eff = index if index >= 0 else index + row_length`; in range
`[0, row_length)` it returns `eff`; out of range, `NULLIFY` returns the
sentinel (`none`) and `DONT_CHECK` returns `eff` unchecked (the
spec-sanctioned reading of the unspecified path). -/
def resolve (index : Int) (row_length : Nat) (policy : out_of_bounds_policy) :
    Option Int :=
  let eff : Int := if 0 ≤ index then index else index + (row_length : Int)
  if 0 ≤ eff ∧ eff < (row_length : Int) then some eff
  else
    match policy with
    | .DONT_CHECK => some eff
    | .NULLIFY => none

/-- Flattened child of a sequence of rows: the concatenation of all row
element lists (spec section 3: child holds the flattened elements). -/
def flatChild : List Row → List (Option Cell)
  | [] => []
  | r :: rs => r.elems ++ flatChild rs

/-- Exclusive prefix sum of a list of lengths, with the total appended:
entry `i` is the sum of the first `i` lengths (spec 4.3). -/
def exclusive_scan (ls : List Nat) : List Nat :=
  (List.range (ls.length + 1)).map (fun i => (ls.take i).sum)

/-- Offsets of a list column's representation: the exclusive prefix sum
of its row lengths (N+1 entries, starting at 0). -/
def offsetsOf (rows : List Row) : List Nat :=
  exclusive_scan (rows.map rowLen)

/-- Flat offset of row `i`: where row `i` starts in the flattened
child, i.e. `offsets[i]`. -/
def offsetAt (rows : List Row) (i : Nat) : Nat :=
  ((rows.map rowLen).take i).sum

/-- Modelled from the spec: the generic element-gather primitive at one
flat position (spec 4.5).  A concrete in-range flat index fetches the
source child element (which may itself be null, composing source
nullity by OR); a sentinel or an out-of-child-range index (reachable
only through the unspecified `DONT_CHECK` path) yields null. -/
def fetch (child : List (Option Cell)) (k : Int) : Option Cell :=
  if 0 ≤ k then child.getD k.toNat none else none

/-- Integer value of a gather-map cell; after validation every
gather-map element is a non-null integral leaf, so the default is never
reached on validated inputs. -/
def cellInt : Option Cell → Int
  | some (.intv i) => i
  | _ => 0

/-- Modelled from the spec: one output row (spec 4.4/4.5/4.6).  Element
`j` resolves the gather-map value against the source row length and
fetches flat index `row offset + eff` from the flattened child (or is
null for the sentinel); the output row's validity composes source-row
and gather-map-row validity. -/
def gather_row (child : List (Option Cell)) (policy : out_of_bounds_policy)
    (off : Nat) (srcRow gmRow : Row) : Row :=
  { valid := srcRow.valid && gmRow.valid
    elems := gmRow.elems.map (fun c =>
      match resolve (cellInt c) (rowLen srcRow) policy with
      | none => none
      | some eff => fetch child ((off : Int) + eff)) }

/-- Modelled from the spec: the per-row pipeline over all rows,
threading the source flat offset (spec 4.4's `source.offsets[i]`). -/
def gather_rows (child : List (Option Cell)) (policy : out_of_bounds_policy) :
    Nat → List Row → List Row → List Row
  | _, _, [] => []
  | _, [], _ => []
  | off, s :: ss, g :: gs =>
      gather_row child policy off s g ::
        gather_rows child policy (off + rowLen s) ss gs

/-- Error taxonomy of `segmented_gather` (spec section 7 and the
`@throws` clauses of `gather.hpp`). -/
inductive GatherError where
  | shape_mismatch
  | invalid_argument
  | type_contract
deriving DecidableEq

/-- Whether a child type is an integral index type of nesting depth
exactly one (spec 4.1's type contract). -/
def is_index_type : DType → Bool
  | .INT => true
  | _ => false

/-- Whether any element (leaf position) of the rows is null; used by
the Validator's invalid-argument check (spec 4.1). -/
def hasNullElement (rows : List Row) : Bool :=
  rows.any (fun r => r.elems.any Option.isNone)

/-- Modelled from the spec: `segmented_gather` of `gather.hpp`, whose
body is not in the snapshot.  Validation per spec 4.1 and the `@throws`
order of the header (shape mismatch, null elements, index type), then
the per-row gather pipeline of spec 4.3-4.6 on success. -/
def segmented_gather (source_column gather_map_list : ListColumn)
    (bounds_policy : out_of_bounds_policy) : Except GatherError ListColumn :=
  if gather_map_list.rows.length ≠ source_column.rows.length then
    .error .shape_mismatch
  else if hasNullElement gather_map_list.rows then
    .error .invalid_argument
  else if is_index_type gather_map_list.childType = false then
    .error .type_contract
  else
    .ok { childType := source_column.childType
          rows := gather_rows (flatChild source_column.rows) bounds_policy 0
                    source_column.rows gather_map_list.rows }

/-- Element of column `c` at row `i`, position `j`: `none` if the
position does not exist, otherwise `some` of the (nullable) element. -/
def elemAt (c : ListColumn) (i j : Nat) : Option (Option Cell) :=
  (c.rows[i]?).bind fun r => r.elems[j]?

/-- Modelled from the spec: the value the pipeline puts at row `i` for
gather value `v` (spec 4.4's flat index combined with spec 4.5's
fetch), used to state per-position facts about the output. -/
def gather_position (srcRows : List Row) (policy : out_of_bounds_policy)
    (i : Nat) (v : Int) : Option Cell :=
  match srcRows[i]? with
  | none => none
  | some s =>
    match resolve v (rowLen s) policy with
    | none => none
    | some eff => fetch (flatChild srcRows) ((offsetAt srcRows i : Int) + eff)

/-- The source column of the two worked examples in `gather.hpp`:
`[{"a","b","c","d"}, {"1","2","3","4"}, {"x","y","z"}]`. -/
def example_source : ListColumn :=
  { childType := .STRING
    rows :=
      [ { valid := true
          elems := [some (.strv "a"), some (.strv "b"),
                    some (.strv "c"), some (.strv "d")] }
      , { valid := true
          elems := [some (.strv "1"), some (.strv "2"),
                    some (.strv "3"), some (.strv "4")] }
      , { valid := true
          elems := [some (.strv "x"), some (.strv "y"), some (.strv "z")] } ] }

/-- Gather map of the first worked example (DONT_CHECK, all in range):
`[{0, 1, 3, 2}, {1, 3, 2}, {}]`. -/
def example_map_in_range : ListColumn :=
  { childType := .INT
    rows :=
      [ { valid := true
          elems := [some (.intv 0), some (.intv 1),
                    some (.intv 3), some (.intv 2)] }
      , { valid := true
          elems := [some (.intv 1), some (.intv 3), some (.intv 2)] }
      , { valid := true, elems := [] } ] }

/-- Gather map of the second worked example (NULLIFY):
`[{0, -1, 4, -5}, {1, 3, 5}, {}]`. -/
def example_map_nullify : ListColumn :=
  { childType := .INT
    rows :=
      [ { valid := true
          elems := [some (.intv 0), some (.intv (-1)),
                    some (.intv 4), some (.intv (-5))] }
      , { valid := true
          elems := [some (.intv 1), some (.intv 3), some (.intv 5)] }
      , { valid := true, elems := [] } ] }

/-- Expected output of the first worked example:
`[{"a","b","d","c"}, {"2","4","3"}, {}]`. -/
def example_result_in_range : ListColumn :=
  { childType := .STRING
    rows :=
      [ { valid := true
          elems := [some (.strv "a"), some (.strv "b"),
                    some (.strv "d"), some (.strv "c")] }
      , { valid := true
          elems := [some (.strv "2"), some (.strv "4"), some (.strv "3")] }
      , { valid := true, elems := [] } ] }

/-- Expected output of the second worked example:
`[{"a","d",null,null}, {"2","4",null}, {}]`. -/
def example_result_nullify : ListColumn :=
  { childType := .STRING
    rows :=
      [ { valid := true
          elems := [some (.strv "a"), some (.strv "d"), none, none] }
      , { valid := true
          elems := [some (.strv "2"), some (.strv "4"), none] }
      , { valid := true, elems := [] } ] }

/-- Single-row source whose middle element is null, for exercising null
composition. -/
def null_elem_source : ListColumn :=
  { childType := .STRING
    rows :=
      [ { valid := true
          elems := [some (.strv "a"), none, some (.strv "c")] } ] }

/-- Gather map whose single index `-2` resolves (row length 3) to the
null middle element of `null_elem_source`. -/
def null_elem_map : ListColumn :=
  { childType := .INT
    rows := [ { valid := true, elems := [some (.intv (-2))] } ] }

/-- Two-element source for exercising gather-map row-level nullity. -/
def null_row_source : ListColumn :=
  { childType := .STRING
    rows :=
      [ { valid := true
          elems := [some (.strv "p"), some (.strv "q")] } ] }

/-- Gather map whose single row is null at the row level but still
carries indices `[1, 0]`. -/
def null_row_map : ListColumn :=
  { childType := .INT
    rows := [ { valid := false
                elems := [some (.intv 1), some (.intv 0)] } ] }

/-- Expected output for `null_row_source` gathered by `null_row_map`:
contents reversed, row marked null. -/
def null_row_result : ListColumn :=
  { childType := .STRING
    rows :=
      [ { valid := false
          elems := [some (.strv "q"), some (.strv "p")] } ] }

/-- Gather-map row selecting every element of a source row in order:
`[0, 1, ..., len-1]`, non-null at the row level. -/
def identity_map_row (s : Row) : Row :=
  { valid := true
    elems := (List.range (rowLen s)).map (fun j => some (.intv (Int.ofNat j))) }

/-- Identity gather map for the worked-example source: row `i` is
`[0, 1, ..., len_i - 1]`. -/
def example_identity_map : ListColumn :=
  { childType := .INT
    rows := example_source.rows.map identity_map_row }

/-- Whether every gather-map value is in range `[-n, n)` for its source
row of length `n`, rows paired positionally. -/
def in_range_map (src gm : ListColumn) : Bool :=
  (List.zip src.rows gm.rows).all (fun p =>
    p.2.elems.all (fun v =>
      decide (-(rowLen p.1 : Int) ≤ cellInt v) &&
        decide (cellInt v < (rowLen p.1 : Int))))

/-! ### Basic lemmas about the pipeline -/

theorem rowLen_gather_row (child : List (Option Cell))
    (policy : out_of_bounds_policy) (off : Nat) (s g : Row) :
    rowLen (gather_row child policy off s g) = rowLen g := by
  simp [gather_row, rowLen]

theorem offsetAt_cons_succ (s : Row) (ss : List Row) (i : Nat) :
    offsetAt (s :: ss) (i + 1) = rowLen s + offsetAt ss i := by
  simp [offsetAt]

theorem gather_rows_map_rowLen (child : List (Option Cell))
    (policy : out_of_bounds_policy) :
    ∀ (off : Nat) (ss gs : List Row), ss.length = gs.length →
      (gather_rows child policy off ss gs).map rowLen = gs.map rowLen
  | _, [], [] => fun _ => rfl
  | _, [], _ :: _ => fun h => by simp at h
  | _, _ :: _, [] => fun _ => rfl
  | off, s :: ss, g :: gs => fun h => by
      simpa [gather_rows, rowLen_gather_row] using
        gather_rows_map_rowLen child policy (off + rowLen s) ss gs
          (by simpa using h)

theorem gather_rows_getElem? (child : List (Option Cell))
    (policy : out_of_bounds_policy) :
    ∀ (off i : Nat) (ss gs : List Row) (s g : Row),
      ss[i]? = some s → gs[i]? = some g →
      (gather_rows child policy off ss gs)[i]? =
        some (gather_row child policy (off + offsetAt ss i) s g)
  | _, _, [], _, _, _ => fun hs _ => by simp at hs
  | _, _, _ :: _, [], _, _ => fun _ hg => by simp at hg
  | off, 0, s' :: _, g' :: _, s, g => fun hs hg => by
      simp only [List.getElem?_cons_zero, Option.some.injEq] at hs hg
      subst hs; subst hg
      simp [gather_rows, offsetAt]
  | off, i + 1, s' :: ss, g' :: gs, s, g => fun hs hg => by
      simp only [List.getElem?_cons_succ] at hs hg
      have := gather_rows_getElem? child policy (off + rowLen s') i ss gs s g hs hg
      simpa [gather_rows, offsetAt_cons_succ, Nat.add_assoc] using this

theorem getD_flatChild :
    ∀ (rows : List Row) (i e : Nat) (s : Row) (c : Option Cell),
      rows[i]? = some s → s.elems[e]? = some c →
      (flatChild rows).getD (offsetAt rows i + e) none = c
  | [], _, _, _, _ => fun hi _ => by simp at hi
  | r :: rs, 0, e, s, c => fun hi he => by
      simp only [List.getElem?_cons_zero, Option.some.injEq] at hi
      subst hi
      have hlt : e < r.elems.length := (List.getElem?_eq_some.mp he).1
      have : offsetAt (r :: rs) 0 + e = e := by simp [offsetAt]
      rw [this, flatChild, List.getD_append _ _ _ _ hlt, List.getD_eq_getElem _ _ hlt]
      exact Option.some.inj (by rw [← List.getElem?_eq_getElem hlt, he])
  | r :: rs, i + 1, e, s, c => fun hi he => by
      simp only [List.getElem?_cons_succ] at hi
      have hge : r.elems.length ≤ offsetAt (r :: rs) (i + 1) + e := by
        rw [offsetAt_cons_succ]; simp [rowLen]; omega
      rw [flatChild, List.getD_append_right _ _ _ _ hge]
      have harith : offsetAt (r :: rs) (i + 1) + e - r.elems.length =
          offsetAt rs i + e := by
        rw [offsetAt_cons_succ]; simp [rowLen]; omega
      rw [harith]
      exact getD_flatChild rs i e s c hi he

theorem fetch_natCast (child : List (Option Cell)) (n : Nat) :
    fetch child (n : Int) = child.getD n none := by
  simp [fetch, Int.toNat_natCast]

theorem fetch_flatChild (rows : List Row) (i e : Nat) (s : Row) (c : Option Cell)
    (hi : rows[i]? = some s) (he : s.elems[e]? = some c) :
    fetch (flatChild rows) ((offsetAt rows i : Int) + (e : Int)) = c := by
  rw [← Int.natCast_add, fetch_natCast]
  exact getD_flatChild rows i e s c hi he

theorem segmented_gather_ok_iff (src gm : ListColumn)
    (policy : out_of_bounds_policy) (out : ListColumn) :
    segmented_gather src gm policy = .ok out ↔
      (gm.rows.length = src.rows.length ∧ hasNullElement gm.rows = false ∧
        is_index_type gm.childType = true ∧
        out = { childType := src.childType
                rows := gather_rows (flatChild src.rows) policy 0
                          src.rows gm.rows }) := by
  unfold segmented_gather
  split_ifs with h1 h2 h3
  · simp [h1]
  · simp [h2]
  · simp [h3]
  · rw [Ne, not_not] at h1
    rw [Bool.not_eq_true] at h2
    rw [Bool.not_eq_false] at h3
    simp only [Except.ok.injEq]
    constructor
    · intro h; exact ⟨h1, h2, h3, h.symm⟩
    · intro h; exact h.2.2.2.symm

theorem resolve_eq_of_in_range (v : Int) (n : Nat)
    (policy : out_of_bounds_policy) (h1 : -(n : Int) ≤ v) (h2 : v < (n : Int)) :
    resolve v n policy = some (if 0 ≤ v then v else v + n) := by
  by_cases hv : 0 ≤ v
  · simp [resolve, hv, h2]
  · have ha : 0 ≤ v + (n : Int) := by omega
    have hb : v + (n : Int) < (n : Int) := by omega
    simp [resolve, hv, ha, hb]

theorem resolve_nullify_of_out_of_range (v : Int) (n : Nat)
    (h : v < -(n : Int) ∨ (n : Int) ≤ v) :
    resolve v n .NULLIFY = none := by
  by_cases hv : 0 ≤ v
  · have : ¬ (v < (n : Int)) := by omega
    simp [resolve, hv, this]
  · have : ¬ (0 ≤ v + (n : Int)) := by omega
    simp [resolve, hv, this]

theorem segmented_gather_elem_eq (src gm : ListColumn)
    (policy : out_of_bounds_policy) (out : ListColumn) (i j : Nat)
    (g : Row) (v : Option Cell)
    (h : segmented_gather src gm policy = .ok out)
    (hg : gm.rows[i]? = some g) (hv : g.elems[j]? = some v) :
    elemAt out i j = some (gather_position src.rows policy i (cellInt v)) := by
  obtain ⟨hlen, -, -, hout⟩ := (segmented_gather_ok_iff src gm policy out).mp h
  have hi : i < gm.rows.length := (List.getElem?_eq_some.mp hg).1
  have hi' : i < src.rows.length := by omega
  have hs : src.rows[i]? = some (src.rows.get ⟨i, hi'⟩) := List.getElem?_eq_getElem hi'
  have hrow := gather_rows_getElem? (flatChild src.rows) policy 0 i
    src.rows gm.rows _ g hs hg
  subst hout
  simp only [elemAt, hrow, Nat.zero_add, Option.some_bind]
  rw [gather_row]
  simp only [List.getElem?_map, hv]
  rw [gather_position, hs]
  rfl

theorem gather_row_identity (rows : List Row) (policy : out_of_bounds_policy)
    (i : Nat) (s : Row) (hs : rows[i]? = some s) :
    gather_row (flatChild rows) policy (offsetAt rows i) s (identity_map_row s) = s := by
  have helems : ∀ (n : Nat) (hn : n < rowLen s),
      (match resolve ((n : Int)) (rowLen s) policy with
        | none => none
        | some eff => fetch (flatChild rows) ((offsetAt rows i : Int) + eff)) =
        s.elems.get ⟨n, hn⟩ := by
    intro n hn
    have h0 : -((rowLen s : Nat) : Int) ≤ (n : Int) := by omega
    have h1 : (n : Int) < ((rowLen s : Nat) : Int) := by exact_mod_cast hn
    have hres : resolve ((n : Int)) (rowLen s) policy = some ((n : Int)) := by
      have := resolve_eq_of_in_range (n : Int) (rowLen s) policy h0 h1
      simpa using this
    rw [hres]
    exact fetch_flatChild rows i n s _ hs (List.getElem?_eq_getElem hn)
  obtain ⟨sv, se⟩ := s
  rw [gather_row, identity_map_row]
  simp only [Row.mk.injEq, Bool.and_true]
  refine ⟨trivial, ?_⟩
  apply List.ext_getElem
  · simp [rowLen]
  · intro n h1 h2
    have hn : n < rowLen ⟨sv, se⟩ := by simpa [rowLen] using h2
    simp only [List.getElem_map, List.getElem_range]
    exact helems n hn

theorem gather_rows_policy_indep (child : List (Option Cell)) :
    ∀ (ss gs : List Row) (off : Nat),
      (∀ p ∈ List.zip ss gs, ∀ v ∈ p.2.elems,
        -(rowLen p.1 : Int) ≤ cellInt v ∧ cellInt v < (rowLen p.1 : Int)) →
      gather_rows child .DONT_CHECK off ss gs =
        gather_rows child .NULLIFY off ss gs
  | [], gs, _ => fun _ => by cases gs <;> rfl
  | _ :: _, [], _ => fun _ => rfl
  | s :: ss, g :: gs, off => fun h => by
      have hhead := h (s, g) (by simp)
      have htail := gather_rows_policy_indep child ss gs (off + rowLen s)
        (fun p hp v hv => h p (by simp [hp]) v hv)
      simp only [gather_rows]
      rw [htail]
      have hrow : gather_row child .DONT_CHECK off s g =
          gather_row child .NULLIFY off s g := by
        rw [gather_row, gather_row]
        simp only [Row.mk.injEq]
        refine ⟨trivial, ?_⟩
        apply List.map_congr_left
        intro v hv
        obtain ⟨ha, hb⟩ := hhead v hv
        rw [resolve_eq_of_in_range (cellInt v) (rowLen s) .DONT_CHECK ha hb,
          resolve_eq_of_in_range (cellInt v) (rowLen s) .NULLIFY ha hb]
      rw [hrow]

/-! ### Claim theorems -/

/-- C1: for the documented source and gather map `[[0,-1,4,-5],[1,3,5],[]]`
under policy NULLIFY, `segmented_gather` returns
`[[a,d,null,null],[2,4,null],[]]`: negative in-range indices resolve from
the row's end and every out-of-range index yields a null element. -/
theorem segmented_gather_worked_example_nullify :
    segmented_gather example_source example_map_nullify .NULLIFY =
      .ok example_result_nullify := by
  rfl

/-- C2: for the documented source and gather map `[[0,1,3,2],[1,3,2],[]]`
under policy DONT_CHECK (all indices in range), `segmented_gather`
returns `[[a,b,d,c],[2,4,3],[]]`. -/
theorem segmented_gather_worked_example_dont_check :
    segmented_gather example_source example_map_in_range .DONT_CHECK =
      .ok example_result_in_range := by
  rfl

/-- C3: shape law.  Whenever `segmented_gather` succeeds, the output has
exactly as many rows as the gather map, each output row has the length
of the corresponding gather-map row (independent of source row lengths),
and the output offsets are the exclusive prefix sum of the gather-map
row lengths. -/
theorem segmented_gather_shape_law (src gm : ListColumn)
    (policy : out_of_bounds_policy) (out : ListColumn)
    (h : segmented_gather src gm policy = .ok out) :
    out.rows.length = gm.rows.length ∧
    (∀ i : Nat, (out.rows[i]?).map rowLen = (gm.rows[i]?).map rowLen) ∧
    offsetsOf out.rows = exclusive_scan (gm.rows.map rowLen) := by
  obtain ⟨hlen, -, -, hout⟩ := (segmented_gather_ok_iff src gm policy out).mp h
  have hmap : out.rows.map rowLen = gm.rows.map rowLen := by
    rw [hout]
    exact gather_rows_map_rowLen _ policy 0 src.rows gm.rows hlen.symm
  refine ⟨?_, ?_, ?_⟩
  · have := congrArg List.length hmap
    simpa using this
  · intro i
    have := congrArg (fun l => l[i]?) hmap
    simpa [List.getElem?_map] using this
  · rw [offsetsOf, hmap]

/-- Witness for C3: the shape law applied to the documented NULLIFY
example. -/
theorem segmented_gather_shape_law_witness :
    example_result_nullify.rows.length = example_map_nullify.rows.length ∧
    (∀ i : Nat, (example_result_nullify.rows[i]?).map rowLen =
      (example_map_nullify.rows[i]?).map rowLen) ∧
    offsetsOf example_result_nullify.rows =
      exclusive_scan (example_map_nullify.rows.map rowLen) :=
  segmented_gather_shape_law example_source example_map_nullify .NULLIFY
    example_result_nullify (by rfl)

/-- C5: negative-index law of the Bounds Resolver.  For `1 ≤ k ≤ n`, the
index `-k` resolves exactly as the index `n - k` does (both to
`n - k`, under either policy); for `k > n`, the index `-k` is out of
range and NULLIFY produces the null sentinel. -/
theorem resolve_negative_index_law (k n : Nat) (policy : out_of_bounds_policy) :
    (1 ≤ k → k ≤ n →
      resolve (-(k : Int)) n policy = some ((n : Int) - (k : Int)) ∧
      resolve (((n - k : Nat) : Int)) n policy = some ((n : Int) - (k : Int))) ∧
    (n < k → resolve (-(k : Int)) n .NULLIFY = none) := by
  constructor
  · intro h1 h2
    constructor
    · have ha : ¬ (0 ≤ -(k : Int)) := by omega
      have hb : 0 ≤ -(k : Int) + (n : Int) := by omega
      have hc : -(k : Int) + (n : Int) < (n : Int) := by omega
      simp only [resolve, if_neg ha, if_pos (And.intro hb hc)]
      exact congrArg some (by omega)
    · have ha : ((n - k : Nat) : Int) = (n : Int) - (k : Int) := by omega
      have hb : (0 : Int) ≤ ((n - k : Nat) : Int) := by omega
      have hc : ((n - k : Nat) : Int) < (n : Int) := by omega
      simp only [resolve, if_pos hb, if_pos (And.intro hb hc)]
      exact congrArg some ha
  · intro h
    apply resolve_nullify_of_out_of_range
    left
    omega

/-- Witness for C5: `-2` in a row of length 4 resolves like `2`, and
`-5` in a row of length 3 nullifies. -/
theorem resolve_negative_index_law_witness :
    (resolve (-((2 : Nat) : Int)) 4 .DONT_CHECK =
        some (((4 : Nat) : Int) - ((2 : Nat) : Int)) ∧
      resolve (((4 - 2 : Nat) : Int)) 4 .DONT_CHECK =
        some (((4 : Nat) : Int) - ((2 : Nat) : Int))) ∧
    resolve (-((5 : Nat) : Int)) 3 .NULLIFY = none :=
  ⟨(resolve_negative_index_law 2 4 .DONT_CHECK).1 (by decide) (by decide),
   (resolve_negative_index_law 5 3 .NULLIFY).2 (by decide)⟩

/-- C8: error taxonomy.  `segmented_gather` fails exactly when the
gather-map row count differs from the source row count, the gather map
contains null elements, or the gather map's child is not an integral
leaf type of depth one; the three failures surface as distinct
catchable errors, never as an empty or partial result. -/
theorem segmented_gather_error_taxonomy (src gm : ListColumn)
    (policy : out_of_bounds_policy) :
    ((∃ e, segmented_gather src gm policy = .error e) ↔
      (gm.rows.length ≠ src.rows.length ∨ hasNullElement gm.rows = true ∨
        is_index_type gm.childType = false)) ∧
    (segmented_gather src gm policy = .error .shape_mismatch ↔
      gm.rows.length ≠ src.rows.length) ∧
    (segmented_gather src gm policy = .error .invalid_argument ↔
      (gm.rows.length = src.rows.length ∧ hasNullElement gm.rows = true)) ∧
    (segmented_gather src gm policy = .error .type_contract ↔
      (gm.rows.length = src.rows.length ∧ hasNullElement gm.rows = false ∧
        is_index_type gm.childType = false)) := by
  unfold segmented_gather
  split_ifs with h1 h2 h3
  · simp_all
  · simp_all
  · simp_all
  · rw [Ne, not_not] at h1
    rw [Bool.not_eq_true] at h2
    rw [Bool.not_eq_false] at h3
    simp_all

/-- C4: identity law.  If every gather-map row `i` is exactly
`[0, 1, ..., len_i - 1]` for the length `len_i` of source row `i`, then
`segmented_gather` returns the source column itself (offsets, validity
and element values at every nesting level), under either policy. -/
theorem segmented_gather_identity_law (src gm : ListColumn)
    (policy : out_of_bounds_policy)
    (hty : gm.childType = .INT)
    (hrows : gm.rows = src.rows.map identity_map_row) :
    segmented_gather src gm policy = .ok src := by
  have hlen : gm.rows.length = src.rows.length := by rw [hrows]; simp
  have hnull : hasNullElement gm.rows = false := by
    rw [hrows]
    simp [hasNullElement, identity_map_row, List.any_map, Function.comp_def]
  have hidx : is_index_type gm.childType = true := by rw [hty]; rfl
  rw [segmented_gather_ok_iff]
  refine ⟨hlen, hnull, hidx, ?_⟩
  have key : gather_rows (flatChild src.rows) policy 0 src.rows gm.rows =
      src.rows := by
    rw [hrows]
    apply List.ext_getElem
    · have hm := gather_rows_map_rowLen (flatChild src.rows) policy 0
        src.rows (src.rows.map identity_map_row) (by simp)
      have := congrArg List.length hm
      simpa using this
    · intro n h1 h2
      have hs : src.rows[n]? = some (src.rows.get ⟨n, h2⟩) :=
        List.getElem?_eq_getElem h2
      have hg : (src.rows.map identity_map_row)[n]? =
          some (identity_map_row (src.rows.get ⟨n, h2⟩)) := by
        simp [List.getElem?_map, hs]
      have hrow := gather_rows_getElem? (flatChild src.rows) policy 0 n
        src.rows (src.rows.map identity_map_row) _ _ hs hg
      rw [List.getElem?_eq_getElem h1] at hrow
      have heq := Option.some.inj hrow
      rw [heq, Nat.zero_add]
      exact gather_row_identity src.rows policy n _ hs
  cases src with
  | mk ct rows => rw [key]

/-- Witness for C4: the identity gather map on the worked-example
source returns the source. -/
theorem segmented_gather_identity_law_witness :
    segmented_gather example_source example_identity_map .NULLIFY =
      .ok example_source :=
  segmented_gather_identity_law example_source example_identity_map .NULLIFY
    rfl rfl

/-- C6: policy divergence law.  Under NULLIFY, a gather index outside
`[-n, n)` for its source row of length `n` yields a null element at
that output position, for every source (so the value fetched never
depends on source memory). -/
theorem segmented_gather_nullify_out_of_range (src gm out : ListColumn)
    (i j : Nat) (s g : Row) (v : Option Cell)
    (h : segmented_gather src gm .NULLIFY = .ok out)
    (hs : src.rows[i]? = some s) (hg : gm.rows[i]? = some g)
    (hv : g.elems[j]? = some v)
    (hrange : cellInt v < -(rowLen s : Int) ∨ (rowLen s : Int) ≤ cellInt v) :
    elemAt out i j = some none := by
  rw [segmented_gather_elem_eq src gm .NULLIFY out i j g v h hg hv]
  have hres := resolve_nullify_of_out_of_range (cellInt v) (rowLen s) hrange
  simp [gather_position, hs, hres]

/-- Witness for C6: index 4 against the length-4 first row of the
worked example produces a null at output position (0, 2). -/
theorem segmented_gather_nullify_out_of_range_witness :
    elemAt example_result_nullify 0 2 = some none :=
  segmented_gather_nullify_out_of_range example_source example_map_nullify
    example_result_nullify 0 2
    { valid := true
      elems := [some (.strv "a"), some (.strv "b"),
                some (.strv "c"), some (.strv "d")] }
    { valid := true
      elems := [some (.intv 0), some (.intv (-1)),
                some (.intv 4), some (.intv (-5))] }
    (some (.intv 4)) (by rfl) (by rfl) (by rfl) (by rfl)
    (Or.inr (by decide))

/-- C7: null composition law.  If an in-range gather index resolves to
a source element that is itself null, the output element is null,
under both policies. -/
theorem segmented_gather_null_composition (src gm out : ListColumn)
    (policy : out_of_bounds_policy) (i j : Nat)
    (s g : Row) (v : Option Cell) (eff : Int)
    (h : segmented_gather src gm policy = .ok out)
    (hs : src.rows[i]? = some s) (hg : gm.rows[i]? = some g)
    (hv : g.elems[j]? = some v)
    (hlo : -(rowLen s : Int) ≤ cellInt v) (hhi : cellInt v < (rowLen s : Int))
    (heff : resolve (cellInt v) (rowLen s) policy = some eff)
    (hnull : s.elems[eff.toNat]? = some none) :
    elemAt out i j = some none := by
  rw [segmented_gather_elem_eq src gm policy out i j g v h hg hv]
  have hres := resolve_eq_of_in_range (cellInt v) (rowLen s) policy hlo hhi
  rw [heff] at hres
  have heq := Option.some.inj hres
  have h0 : 0 ≤ eff := by rw [heq]; split <;> omega
  have hcast : ((eff.toNat : Nat) : Int) = eff := Int.toNat_of_nonneg h0
  have hfetch : fetch (flatChild src.rows) ((offsetAt src.rows i : Int) + eff) =
      none := by
    rw [← hcast]
    exact fetch_flatChild src.rows i eff.toNat s none hs hnull
  simp [gather_position, hs, heff, hfetch]

/-- Witness for C7: index `-2` against `["a", null, "c"]` resolves to
the null middle element, so the output element is null. -/
theorem segmented_gather_null_composition_witness :
    elemAt { childType := DType.STRING
             rows := [{ valid := true, elems := [none] }] } 0 0 = some none :=
  segmented_gather_null_composition null_elem_source null_elem_map
    { childType := DType.STRING
      rows := [{ valid := true, elems := [none] }] }
    .DONT_CHECK 0 0
    { valid := true
      elems := [some (.strv "a"), none, some (.strv "c")] }
    { valid := true, elems := [some (.intv (-2))] }
    (some (.intv (-2))) 1 (by rfl) (by rfl) (by rfl) (by rfl)
    (by decide) (by decide) (by decide) (by rfl)

/-- C9: gather-map row-level nullity pass-through.  If a gather-map row
is null at the row level (while still carrying index values), the
output row is marked null at the row level, but its length and every
element still reflect the row's mapped positions. -/
theorem segmented_gather_map_row_nullity (src gm : ListColumn)
    (policy : out_of_bounds_policy) (out : ListColumn) (i : Nat) (g : Row)
    (h : segmented_gather src gm policy = .ok out)
    (hg : gm.rows[i]? = some g) (hnull : g.valid = false) :
    ∃ r : Row, out.rows[i]? = some r ∧ r.valid = false ∧
      rowLen r = rowLen g ∧
      ∀ j : Nat, r.elems[j]? =
        (g.elems[j]?).map
          (fun v => gather_position src.rows policy i (cellInt v)) := by
  obtain ⟨hlen, -, -, hout⟩ := (segmented_gather_ok_iff src gm policy out).mp h
  have hi : i < gm.rows.length := (List.getElem?_eq_some.mp hg).1
  have hi' : i < src.rows.length := by omega
  have hs : src.rows[i]? = some (src.rows.get ⟨i, hi'⟩) := List.getElem?_eq_getElem hi'
  have hrow := gather_rows_getElem? (flatChild src.rows) policy 0 i
    src.rows gm.rows _ g hs hg
  refine ⟨gather_row (flatChild src.rows) policy (0 + offsetAt src.rows i)
    (src.rows.get ⟨i, hi'⟩) g, ?_, ?_, ?_, ?_⟩
  · rw [hout]; exact hrow
  · simp [gather_row, hnull]
  · exact rowLen_gather_row _ _ _ _ _
  · intro j
    cases hv : g.elems[j]? with
    | none =>
        rw [gather_row]
        simp [List.getElem?_map, hv]
    | some v =>
        rw [gather_row]
        simp only [List.getElem?_map, hv, Option.map_some', Nat.zero_add]
        rw [gather_position, hs]

/-- Witness for C9: a null gather-map row `[1, 0]` over source row
`["p", "q"]` produces the reversed contents marked null at row
level. -/
theorem segmented_gather_map_row_nullity_witness :
    ∃ r : Row, null_row_result.rows[0]? = some r ∧ r.valid = false ∧
      rowLen r = rowLen { valid := false
                          elems := [some (.intv 1), some (.intv 0)] } ∧
      ∀ j : Nat, r.elems[j]? =
        ((({ valid := false
             elems := [some (.intv 1), some (.intv 0)] } : Row).elems)[j]?).map
          (fun v => gather_position null_row_source.rows .NULLIFY 0 (cellInt v)) :=
  segmented_gather_map_row_nullity null_row_source null_row_map .NULLIFY
    null_row_result 0
    { valid := false, elems := [some (.intv 1), some (.intv 0)] }
    (by rfl) (by rfl) (by rfl)

/-- C10: in-range policy equivalence.  If every gather-map value lies
in `[-n, n)` for its source row of length `n`, then DONT_CHECK and
NULLIFY return the same column: the bounds policy affects only
out-of-range elements. -/
theorem segmented_gather_policy_equivalence (src gm : ListColumn)
    (h : in_range_map src gm = true) :
    segmented_gather src gm .DONT_CHECK = segmented_gather src gm .NULLIFY := by
  have h' : ∀ p ∈ List.zip src.rows gm.rows, ∀ v ∈ p.2.elems,
      -(rowLen p.1 : Int) ≤ cellInt v ∧ cellInt v < (rowLen p.1 : Int) := by
    simp only [in_range_map, List.all_eq_true, Bool.and_eq_true,
      decide_eq_true_eq] at h
    exact fun p hp v hv => h p hp v hv
  unfold segmented_gather
  split_ifs
  · rfl
  · rfl
  · rfl
  · rw [gather_rows_policy_indep (flatChild src.rows) src.rows gm.rows 0 h']

/-- Witness for C10: the all-in-range worked example gives the same
result under both policies. -/
theorem segmented_gather_policy_equivalence_witness :
    segmented_gather example_source example_map_in_range .DONT_CHECK =
      segmented_gather example_source example_map_in_range .NULLIFY :=
  segmented_gather_policy_equivalence example_source example_map_in_range
    (by rfl)

end Cudf
